import Mathlib

/-
Verification of the wayland client in main.go.  The file embeds the pure
computational core of the program: the message codec (makeMsgBuf, the header
decoding done by read, parseStr, the string encoding done by mustBind), the
object registry (objects, regObj, the delete_id handling of
handleWLDisplayEvent) and the socket-path resolution performed by main.
Bytes are modelled as natural numbers below 256, byte slices as List Nat,
and Go's fixed-width unsigned arithmetic as Nat arithmetic with explicit
reduction modulo 2^32 (= 4294967296) or 2^16 (= 65536) where Go would wrap.
-/

/-- Little-endian 32-bit encoding, modelling binary.LittleEndian.PutUint32 /
AppendUint32: least significant byte first.  Encodes n modulo 2^32. -/
def putU32le (n : Nat) : List Nat :=
  [n % 256, n / 256 % 256, n / 65536 % 256, n / 16777216 % 256]

/-- Little-endian 32-bit decoding, modelling binary.LittleEndian.Uint32 on a
buffer of at least four bytes. -/
def u32le (b : List Nat) : Nat :=
  b.getD 0 0 + b.getD 1 0 * 256 + b.getD 2 0 * 65536 + b.getD 3 0 * 16777216

/-- Go slice expression b[lo:hi] as a list: the elements at indexes
lo, ..., hi-1. -/
def goSlice (b : List Nat) (lo hi : Nat) : List Nat :=
  (b.drop lo).take (hi - lo)

theorem putU32le_length (n : Nat) : (putU32le n).length = 4 := rfl

theorem u32le_putU32le (n : Nat) : u32le (putU32le n) = n % 4294967296 := by
  simp only [putU32le, u32le, List.getD_cons_zero, List.getD_cons_succ]
  omega

theorem u32le_put_append (n : Nat) (r : List Nat) :
    u32le (putU32le n ++ r) = n % 4294967296 := by
  simp only [putU32le, u32le, List.cons_append, List.nil_append,
    List.getD_cons_zero, List.getD_cons_succ]
  omega

theorem drop4_put (n : Nat) (r : List Nat) : (putU32le n ++ r).drop 4 = r := by
  simp [putU32le]

/-- Header encoder, from makeMsgBuf (main.go lines 424-430): the returned
buffer is the 8-byte header, target id as a little-endian u32 followed by the
word msgLen<<16 + opcode computed in uint32 arithmetic, msgLen being
HEADER_SIZE (8) + dataLen in uint32 arithmetic. -/
def makeMsgBuf (id : Nat) (opcode : Nat) (dataLen : Nat) : List Nat :=
  let msgLen := (8 + dataLen) % 4294967296
  putU32le id ++ putU32le ((msgLen * 65536 + opcode % 65536) % 4294967296)

/-- Header decoder, from read (main.go lines 230-234): id is the first
little-endian word, the second word holds size in its high 16 bits and the
opcode in its low 16 bits, and the body length is size - HEADER_SIZE in
uint32 arithmetic. -/
def decodeHeader (hdr : List Nat) : Nat × Nat × Nat :=
  (u32le hdr, u32le (hdr.drop 4) % 65536,
   (u32le (hdr.drop 4) / 65536 + 4294967296 - 8) % 4294967296)

/-- C1: header codec round-trip.  For every target, opcode and bodyLength
with 8 + bodyLength representable in the 16-bit length field, decoding the
8-byte header produced by makeMsgBuf recovers exactly the triple
(target, opcode, bodyLength). -/
theorem decodeHeader_makeMsgBuf (target opcode bodyLen : Nat)
    (ht : target < 4294967296) (hop : opcode < 65536)
    (hlen : 8 + bodyLen < 65536) :
    decodeHeader (makeMsgBuf target opcode bodyLen) = (target, opcode, bodyLen) := by
  simp only [makeMsgBuf, decodeHeader, u32le_put_append, drop4_put, u32le_putU32le]
  refine Prod.ext ?_ (Prod.ext ?_ ?_) <;> simp only <;> omega

/-- Witness for C1 at the concrete header (target 7, opcode 4, body length 4),
the shape of the wl_display::get_registry request header. -/
theorem decodeHeader_makeMsgBuf_witness :
    (7 : Nat) < 4294967296 ∧ (4 : Nat) < 65536 ∧ (8 : Nat) + 4 < 65536 ∧
    decodeHeader (makeMsgBuf 7 4 4) = (7, 4, 4) :=
  ⟨by decide, by decide, by decide,
   decodeHeader_makeMsgBuf 7 4 4 (by decide) (by decide) (by decide)⟩

/-- String decoder, from parseStr (main.go lines 432-437): reads the u32
length n, computes end = 4 + n and pad = (4 - n%4) % 4 in uint32 arithmetic,
and returns the slice b[4 : end-1] together with the consumed count
end + pad.  The Go slice expression panics (modelled as none) when the
bounds 4 <= end-1 <= len(b) are violated; end-1 is uint32 arithmetic and
wraps when end = 0. -/
def parseStr (b : List Nat) : Option (List Nat × Nat) :=
  if b.length < 4 then none
  else
    let n := u32le b
    let e := (4 + n) % 4294967296
    let pad := (4 - n % 4) % 4
    let hi := (e + 4294967296 - 1) % 4294967296
    if 4 ≤ hi ∧ hi ≤ b.length then some (goSlice b 4 hi, (e + pad) % 4294967296)
    else none

/-- Wire-string encoder, the string-emitting steps of mustBind (main.go
lines 283-292): a u32 length field equal to len(s)+1 (counting the mandatory
NUL), the content bytes, one NUL byte, then (4 - (len(s)+1)%4) % 4 zero
padding bytes to reach a 4-byte boundary. -/
def encodeString (s : List Nat) : List Nat :=
  let strLen := (s.length + 1) % 4294967296
  let padding := (4 - strLen % 4) % 4
  putU32le strLen ++ s ++ [0] ++ List.replicate padding 0

/-- C2: string codec round-trip and padding.  For every byte string s (of
representable length), parseStr applied to the wire encoding of s recovers
exactly s, and the reported bytes-consumed count, 4 + (len+1) + pad, is
divisible by 4. -/
theorem parseStr_encodeString (s : List Nat) (h : s.length + 8 < 4294967296) :
    parseStr (encodeString s) =
      some (s, 4 + (s.length + 1) + (4 - (s.length + 1) % 4) % 4) ∧
    (4 + (s.length + 1) + (4 - (s.length + 1) % 4) % 4) % 4 = 0 := by
  have hlen : (encodeString s).length = 4 + s.length + 1 + (4 - (s.length + 1) % 4) % 4 := by
    simp only [encodeString]
    simp [putU32le]
    omega
  have hmod : (s.length + 1) % 4294967296 = s.length + 1 := by omega
  constructor
  · simp only [parseStr, encodeString, hmod, List.append_assoc] at hlen ⊢
    rw [if_neg (by omega)]
    rw [u32le_put_append]
    have hn : (s.length + 1) % 4294967296 = s.length + 1 := by omega
    rw [hn]
    have hhi : ((4 + (s.length + 1)) % 4294967296 + 4294967296 - 1) % 4294967296
        = 4 + s.length := by omega
    rw [hhi, if_pos (by constructor <;> omega)]
    have hval : goSlice (putU32le (s.length + 1) ++ (s ++ ([0] ++
        List.replicate ((4 - (s.length + 1) % 4) % 4) 0))) 4 (4 + s.length) = s := by
      simp only [goSlice]
      rw [drop4_put]
      have h4 : (4 + s.length - 4) = s.length := by omega
      rw [h4]
      rw [List.take_append_of_le_length (by omega)]
      simp
    rw [hval]
    simp only [Option.some.injEq, Prod.mk.injEq]
    exact ⟨trivial, by omega⟩
  · omega

/-- Witness for C2 at the two-byte string [119, 108] ("wl"): the decoded
value is the string itself and the consumed count is 8, divisible by 4. -/
theorem parseStr_encodeString_witness :
    ([119, 108] : List Nat).length + 8 < 4294967296 ∧
    (parseStr (encodeString [119, 108]) =
        some ([119, 108],
          4 + (([119, 108] : List Nat).length + 1) +
            (4 - (([119, 108] : List Nat).length + 1) % 4) % 4) ∧
      (4 + (([119, 108] : List Nat).length + 1) +
          (4 - (([119, 108] : List Nat).length + 1) % 4) % 4) % 4 = 0) :=
  ⟨by decide, parseStr_encodeString [119, 108] (by decide)⟩

/-- Full bind request, from mustBind (main.go lines 282-294): an 8-byte
header addressed to the registry singleton (id 2, opcode 0) with body length
4*WORD_SIZE + strLen + padding, followed by the body: name, the u32 string
length len(iface)+1, the interface bytes, a NUL, the zero padding, then
version and the locally allocated new id. -/
def mustBindMsg (name id ver : Nat) (iface : List Nat) : List Nat :=
  let strLen := (iface.length + 1) % 4294967296
  let padding := (4 - strLen % 4) % 4
  makeMsgBuf 2 0 ((4 * 4 + strLen + padding) % 4294967296)
    ++ putU32le name ++ putU32le strLen ++ iface ++ [0]
    ++ List.replicate padding 0 ++ putU32le ver ++ putU32le id

/-- Byte content of the interface string "wl_compositor" matched and bound in
the discovery loop of main (main.go lines 69-71). -/
def wlCompositorBytes : List Nat :=
  [119, 108, 95, 99, 111, 109, 112, 111, 115, 105, 116, 111, 114]

/-- Counterexample to C4 as stated: binding name=5, version=4, new id=3 for
"wl_compositor" does not produce a body whose second field (the string
length) is 13; the code writes len(iface)+1 = 14 there. -/
theorem mustBind_len13_false :
    (mustBindMsg 5 3 4 wlCompositorBytes).drop 8 ≠
      putU32le 5 ++ putU32le 13 ++ wlCompositorBytes ++ [0, 0, 0]
        ++ putU32le 4 ++ putU32le 3 := by decide

/-- C4 amended: the bind request body is exactly
[name=5][len=14][interface bytes + NUL + 2 pad][version=4][newid=3], the
length field counting the mandatory NUL (13 + 1 = 14), with the
interface-string section (content + NUL + padding) occupying 16 bytes and
the four u32 fields in that order. -/
theorem mustBind_body_bytes :
    (mustBindMsg 5 3 4 wlCompositorBytes).drop 8 =
      putU32le 5 ++ putU32le 14 ++ wlCompositorBytes ++ [0] ++ [0, 0]
        ++ putU32le 4 ++ putU32le 3 ∧
    (wlCompositorBytes ++ [0] ++ [0, 0]).length = 16 ∧
    (mustBindMsg 5 3 4 wlCompositorBytes).length = 8 + 4 * 4 + 16 := by decide

/-- C8: makeMsgBuf has no overflow guard.  At dataLen = 65528 (so that
msgLen = 8 + dataLen = 65536 no longer fits the 16-bit length field) the
encoder still returns a complete 8-byte header, and the packed second word
is 65536 << 16 mod 2^32 = 0: the length field silently truncates to 0
instead of the encoding failing. -/
theorem makeMsgBuf_truncates :
    makeMsgBuf 1 0 65528 = putU32le 1 ++ putU32le 0 ∧
    (makeMsgBuf 1 0 65528).length = 8 ∧
    u32le ((makeMsgBuf 1 0 65528).drop 4) = 0 := by decide

/-- Object type tags, from the objType constant block (main.go lines
164-181); objNone = 0 marks a free slot. -/
def objNone : Nat := 0

def objWLDisplay : Nat := 1

def objWLRegistry : Nat := 2

def objWLCallback : Nat := 3

def objWLCompositor : Nat := 4

/-- The object table: the 256-entry array objects, modelled as a total map
from slot index to type tag (only indexes below 256 correspond to array
slots; regObj and handleWLDisplayEvent never touch higher indexes). -/
def Table : Type := Nat → Nat

/-- Array element assignment objects[i] = v (in-range writes only). -/
def setSlot (s : Table) (i v : Nat) : Table :=
  fun j => if j = i then v else s j

/-- Freeing a slot: objects[x] = objNone, the delete_id action of
handleWLDisplayEvent (main.go line 257). -/
def freeObj (s : Table) (x : Nat) : Table := setSlot s x objNone

/-- Initial object table (main.go line 183): slot 1 holds the display
singleton, slot 2 the registry singleton, every other slot is free. -/
def objects : Table :=
  fun j => if j = 1 then objWLDisplay else if j = 2 then objWLRegistry else objNone

/-- Loop body of regObj (main.go lines 185-196): scan from id upward while
id < 256, claim the first slot whose tag is 0, return the final id and the
updated table.  The fuel argument is 256 - id at every reachable call, so
the fuel-exhaustion branch is never taken from regObj's entry point. -/
def regObjAux (t : Nat) (s : Table) : Nat → Nat → Nat × Table
  | 0, id => (id, s)
  | fuel + 1, id =>
    if 256 ≤ id then (id, s)
    else if s id = 0 then (id, setSlot s id t)
    else regObjAux t s fuel (id + 1)

/-- regObj (main.go lines 185-196): linear scan from id 1 over the 256-entry
table for the first free slot; sets it to t and returns its index, or
returns 256 (the table length) with the table unchanged when no slot is
free. -/
def regObj (t : Nat) (s : Table) : Nat × Table := regObjAux t s 255 1

theorem regObjAux_cases (t : Nat) (s : Table) (fuel : Nat) :
    ∀ id, 256 ≤ fuel + id → id ≤ 256 →
      regObjAux t s fuel id = (256, s) ∨
      ((regObjAux t s fuel id).1 < 256 ∧ id ≤ (regObjAux t s fuel id).1 ∧
        s (regObjAux t s fuel id).1 = 0 ∧
        regObjAux t s fuel id
          = ((regObjAux t s fuel id).1, setSlot s (regObjAux t s fuel id).1 t)) := by
  induction fuel with
  | zero =>
    intro id h1 h2
    have : id = 256 := by omega
    subst this
    exact Or.inl rfl
  | succ fuel ih =>
    intro id h1 h2
    by_cases hid : 256 ≤ id
    · have : id = 256 := by omega
      subst this
      simp [regObjAux]
    · by_cases hfree : s id = 0
      · right
        simp only [regObjAux, if_neg hid, if_pos hfree]
        exact ⟨by omega, by omega, hfree, by trivial⟩
      · have heq : regObjAux t s (fuel + 1) id = regObjAux t s fuel (id + 1) := by
          simp only [regObjAux, if_neg hid, if_neg hfree]
        rw [heq]
        rcases ih (id + 1) (by omega) (by omega) with h | ⟨ha, hb, hc, hd⟩
        · exact Or.inl h
        · exact Or.inr ⟨ha, by omega, hc, hd⟩

theorem regObjAux_min (t : Nat) (s : Table) (fuel : Nat) :
    ∀ id x, id ≤ x → x < 256 → 256 ≤ fuel + id → s x = 0 →
      (∀ j, id ≤ j → j < x → s j ≠ 0) →
      regObjAux t s fuel id = (x, setSlot s x t) := by
  induction fuel with
  | zero => intro id x h1 h2 h3 _ _; omega
  | succ fuel ih =>
    intro id x h1 h2 h3 hx hbusy
    have hid : ¬ 256 ≤ id := by omega
    by_cases hfree : s id = 0
    · have : id = x := by
        by_contra hne
        exact hbusy id (le_refl id) (by omega) hfree
      subst this
      simp only [regObjAux, if_neg hid, if_pos hfree]
    · have hne : id ≠ x := fun h => hfree (h ▸ hx)
      simp only [regObjAux, if_neg hid, if_neg hfree]
      exact ih (id + 1) x (by omega) h2 (by omega) hx
        (fun j hj1 hj2 => hbusy j (by omega) hj2)

theorem regObjAux_full (t : Nat) (s : Table) (fuel : Nat) :
    ∀ id, id ≤ 256 → 256 ≤ fuel + id →
      (∀ j, id ≤ j → j < 256 → s j ≠ 0) →
      regObjAux t s fuel id = (256, s) := by
  induction fuel with
  | zero =>
    intro id h1 h2 _
    have : id = 256 := by omega
    subst this
    rfl
  | succ fuel ih =>
    intro id h1 h2 hbusy
    by_cases hid : 256 ≤ id
    · have : id = 256 := by omega
      subst this
      simp [regObjAux]
    · have hfree : ¬ s id = 0 := hbusy id (le_refl id) (by omega)
      simp only [regObjAux, if_neg hid, if_neg hfree]
      exact ih (id + 1) (by omega) (by omega) (fun j hj1 hj2 => hbusy j (by omega) hj2)

/-- The error value built by the wl_display error path (main.go lines
239-243). -/
structure wlDisplayErr where
  id : Nat
  code : Nat
  msg : List Nat

/-- Event handler for the display singleton, from handleWLDisplayEvent
(main.go lines 249-260).  The result is none when the Go code panics: a
LittleEndian.Uint32 read off the end of the body, a parseStr slice violation,
or the unchecked array write objects[object] with object outside the
256-entry table (Go index-out-of-range).  Otherwise it returns the updated
table and the error value the function returns (some err for opcode 0, nil
for every other opcode). -/
def handleWLDisplayEvent (opcode : Nat) (body : List Nat) (tbl : Table) :
    Option (Table × Option wlDisplayErr) :=
  if body.length < 4 then none
  else if opcode = 0 then
    if body.length < 8 then none
    else
      match parseStr (body.drop 8) with
      | none => none
      | some msgOff => some (tbl, some ⟨u32le body, u32le (body.drop 4), msgOff.1⟩)
  else if opcode = 1 then
    if u32le body < 256 then some (freeObj tbl (u32le body), none) else none
  else some (tbl, none)

/-- C5: id allocation is injective and reuses freed slots.  For any table
state, a successful regObj result (below 256) is an id whose slot was free
before, two consecutive successful allocations return distinct ids, a
delete_id event for a live id x resets x's slot to none, and when x was the
least live id with everything below it live, the next regObj returns x
again. -/
theorem regObj_fresh_reuse (s : Table) (t u x : Nat)
    (ht : t ≠ 0) (hx1 : 1 ≤ x) (hx : x < 256) (hxlive : s x ≠ 0)
    (hbelow : ∀ j, 1 ≤ j → j < x → s j ≠ 0) :
    ((regObj t s).1 < 256 → s (regObj t s).1 = 0) ∧
    ((regObj t s).1 < 256 → (regObj u (regObj t s).2).1 ≠ (regObj t s).1) ∧
    handleWLDisplayEvent 1 (putU32le x) s = some (freeObj s x, none) ∧
    (regObj u (freeObj s x)).1 = x := by
  have hcases := regObjAux_cases t s 255 1 (by omega) (by omega)
  refine ⟨?_, ?_, ?_, ?_⟩
  · intro hlt
    rcases hcases with h | ⟨_, _, hc, _⟩
    · rw [show regObj t s = regObjAux t s 255 1 from rfl, h] at hlt
      exact absurd hlt (by omega)
    · exact hc
  · intro hlt
    rcases hcases with h | ⟨_, _, hc, hd⟩
    · rw [show regObj t s = regObjAux t s 255 1 from rfl, h] at hlt
      exact absurd hlt (by omega)
    · intro heq
      have hsnd : (regObj t s).2 = setSlot s (regObj t s).1 t := by
        have := congrArg Prod.snd hd
        exact this
      have hcases2 := regObjAux_cases u (regObj t s).2 255 1 (by omega) (by omega)
      rcases hcases2 with h2 | ⟨ha2, _, hc2, _⟩
      · have : (regObj u (regObj t s).2).1 = 256 := by
          rw [show regObj u (regObj t s).2 = regObjAux u (regObj t s).2 255 1 from rfl, h2]
        omega
      · have hc2' : (regObj t s).2 (regObj u (regObj t s).2).1 = 0 := hc2
        rw [heq, hsnd] at hc2'
        simp only [setSlot, if_pos rfl] at hc2'
        exact ht hc2'
  · have hobj : u32le (putU32le x) = x := by rw [u32le_putU32le]; omega
    simp only [handleWLDisplayEvent, putU32le_length, hobj]
    simp [hx]
  · have hfree : freeObj s x x = 0 := by simp [freeObj, setSlot, objNone]
    have hbusy : ∀ j, 1 ≤ j → j < x → freeObj s x j ≠ 0 := by
      intro j hj1 hj2
      simp only [freeObj, setSlot, if_neg (by omega : j ≠ x)]
      exact hbelow j hj1 hj2
    have := regObjAux_min u (freeObj s x) 255 1 x hx1 hx (by omega) hfree
      (fun j hj1 hj2 => hbusy j hj1 hj2)
    rw [show regObj u (freeObj s x) = regObjAux u (freeObj s x) 255 1 from rfl, this]

/-- Table fixture for the C5 witness: the bootstrap singletons in slots
1 and 2 and a live callback in slot 3. -/
def cbTable : Table :=
  fun j => if j = 1 then objWLDisplay else if j = 2 then objWLRegistry
    else if j = 3 then objWLCallback else objNone

/-- Witness for C5 at the table holding a live callback in slot 3: deleting
id 3 frees it and the next allocation returns 3 again. -/
theorem regObj_fresh_reuse_witness :
    (objWLCallback ≠ 0 ∧ 1 ≤ 3 ∧ 3 < 256 ∧ cbTable 3 ≠ 0) ∧
    (((regObj objWLCallback cbTable).1 < 256 →
        cbTable (regObj objWLCallback cbTable).1 = 0) ∧
      ((regObj objWLCallback cbTable).1 < 256 →
        (regObj objWLCallback (regObj objWLCallback cbTable).2).1
          ≠ (regObj objWLCallback cbTable).1) ∧
      handleWLDisplayEvent 1 (putU32le 3) cbTable
        = some (freeObj cbTable 3, none) ∧
      (regObj objWLCallback (freeObj cbTable 3)).1 = 3) :=
  ⟨⟨by decide, by decide, by decide, by decide⟩,
   regObj_fresh_reuse cbTable objWLCallback objWLCallback 3
     (by decide) (by decide) (by decide) (by decide)
     (fun j h1 h2 => by
       have hj : j = 1 ∨ j = 2 := by omega
       rcases hj with h | h <;> subst h <;> decide)⟩

/-- Counterexample to C6 as stated: handling a delete_id event naming id 1
does reset the display singleton's slot to none — handleWLDisplayEvent
writes objects[1] = objNone unconditionally, with no carve-out for the
bootstrap ids. -/
theorem delete_id_resets_bootstrap_slot :
    (handleWLDisplayEvent 1 (putU32le 1) objects).map (fun r => r.1 1) = some 0 := rfl

/-- C6 amended: regObj never returns ids 1 or 2 from any table in which
slots 1 and 2 are live (as they are in the initial table), and neither
regObj nor the freeing of any other id changes slots 1 and 2; only a
delete_id event naming 1 or 2 can reset them, so absent such an event the
two bootstrap singletons stay live for the connection's lifetime. -/
theorem bootstrap_ids_reserved (s : Table) (t x : Nat)
    (h1 : s 1 ≠ 0) (h2 : s 2 ≠ 0) :
    (regObj t s).1 ≠ 1 ∧ (regObj t s).1 ≠ 2 ∧
    (regObj t s).2 1 = s 1 ∧ (regObj t s).2 2 = s 2 ∧
    (x ≠ 1 → x ≠ 2 → freeObj s x 1 = s 1 ∧ freeObj s x 2 = s 2) ∧
    objects 1 ≠ 0 ∧ objects 2 ≠ 0 := by
  have hcases := regObjAux_cases t s 255 1 (by omega) (by omega)
  have hne1 : (regObj t s).1 ≠ 1 := by
    rcases hcases with h | ⟨_, _, hc, _⟩
    · have : (regObj t s).1 = 256 := congrArg Prod.fst h
      omega
    · intro heq
      have hc' : s (regObj t s).1 = 0 := hc
      rw [heq] at hc'
      exact h1 hc'
  have hne2 : (regObj t s).1 ≠ 2 := by
    rcases hcases with h | ⟨_, _, hc, _⟩
    · have : (regObj t s).1 = 256 := congrArg Prod.fst h
      omega
    · intro heq
      have hc' : s (regObj t s).1 = 0 := hc
      rw [heq] at hc'
      exact h2 hc'
  refine ⟨hne1, hne2, ?_, ?_, ?_, by decide, by decide⟩
  · rcases hcases with h | ⟨_, _, _, hd⟩
    · rw [show (regObj t s).2 = s from congrArg Prod.snd h]
    · have : (regObj t s).2 = setSlot s (regObj t s).1 t := congrArg Prod.snd hd
      rw [this, setSlot, if_neg (by omega : (1 : Nat) ≠ (regObj t s).1)]
  · rcases hcases with h | ⟨_, _, _, hd⟩
    · rw [show (regObj t s).2 = s from congrArg Prod.snd h]
    · have : (regObj t s).2 = setSlot s (regObj t s).1 t := congrArg Prod.snd hd
      rw [this, setSlot, if_neg (by omega : (2 : Nat) ≠ (regObj t s).1)]
  · intro hx1 hx2
    constructor
    · rw [freeObj, setSlot, if_neg (by omega : (1 : Nat) ≠ x)]
    · rw [freeObj, setSlot, if_neg (by omega : (2 : Nat) ≠ x)]

/-- Witness for C6 (amended) at the initial table, allocating a compositor
object while contemplating the free of id 5. -/
theorem bootstrap_ids_reserved_witness :
    (objects 1 ≠ 0 ∧ objects 2 ≠ 0) ∧
    ((regObj objWLCompositor objects).1 ≠ 1 ∧
      (regObj objWLCompositor objects).1 ≠ 2 ∧
      (regObj objWLCompositor objects).2 1 = objects 1 ∧
      (regObj objWLCompositor objects).2 2 = objects 2 ∧
      ((5 : Nat) ≠ 1 → (5 : Nat) ≠ 2 →
        freeObj objects 5 1 = objects 1 ∧ freeObj objects 5 2 = objects 2) ∧
      objects 1 ≠ 0 ∧ objects 2 ≠ 0) :=
  ⟨⟨by decide, by decide⟩,
   bootstrap_ids_reserved objects objWLCompositor 5 (by decide) (by decide)⟩

/-- C7: capacity exhaustion.  When every slot 1..255 of the fixed table is
occupied, regObj performs no allocation: it leaves the table unchanged and
returns 256, the table length, which is outside the valid slot range — it
never completes as a successful allocation. -/
theorem regObj_exhaustion (s : Table) (t : Nat)
    (hfull : ∀ j, 1 ≤ j → j < 256 → s j ≠ 0) :
    regObj t s = (256, s) :=
  regObjAux_full t s 255 1 (by omega) (by omega)
    (fun j hj1 hj2 => hfull j hj1 hj2)

/-- Table fixture for the C7 witness: every slot occupied. -/
def fullTable : Table := fun _ => objWLCompositor

/-- Witness for C7 at a fully occupied table. -/
theorem regObj_exhaustion_witness :
    regObj objWLCallback fullTable = (256, fullTable) :=
  regObj_exhaustion fullTable objWLCallback
    (fun j h1 h2 => by simp [fullTable, objWLCompositor])

/-- Counterexample to C10 as stated: a delete_id event naming id 256 (at the
256-entry table's length) makes handleWLDisplayEvent fault — the Go write
objects[256] panics with index out of range — instead of returning without
error. -/
theorem handleWLDisplayEvent_delete_id_256_faults :
    handleWLDisplayEvent 1 (putU32le 256) objects = none := rfl

/-- C10 amended: delete_id handling is total exactly on ids inside the
256-entry table.  For every u32 id N below 256 (including 0 and ids of live
objects) handleWLDisplayEvent frees slot N and returns without error; for
every N at or beyond 256 it faults (Go index-out-of-range panic). -/
theorem handleWLDisplayEvent_delete_id (N : Nat) (tbl : Table)
    (hN : N < 4294967296) :
    (N < 256 → handleWLDisplayEvent 1 (putU32le N) tbl
        = some (freeObj tbl N, none)) ∧
    (256 ≤ N → handleWLDisplayEvent 1 (putU32le N) tbl = none) := by
  have hobj : u32le (putU32le N) = N := by rw [u32le_putU32le]; omega
  constructor
  · intro h
    simp only [handleWLDisplayEvent, putU32le_length, hobj]
    simp [h]
  · intro h
    have hnot : ¬ N < 256 := by omega
    simp only [handleWLDisplayEvent, putU32le_length, hobj]
    simp [hnot]

/-- Witness for C10 (amended) at id 0 against the initial table. -/
theorem handleWLDisplayEvent_delete_id_witness :
    (0 : Nat) < 4294967296 ∧
    (((0 : Nat) < 256 → handleWLDisplayEvent 1 (putU32le 0) objects
        = some (freeObj objects 0, none)) ∧
      ((256 : Nat) ≤ 0 → handleWLDisplayEvent 1 (putU32le 0) objects = none)) :=
  ⟨by decide, handleWLDisplayEvent_delete_id 0 objects (by decide)⟩

/-- Splitting a path on the separator, an auxiliary step of Go's lexical
path cleaning; paths are modelled as lists of characters. -/
def splitSlash : List Char → List (List Char)
  | [] => [[]]
  | c :: rest =>
    let r := splitSlash rest
    if c = '/' then [] :: r
    else
      match r with
      | [] => [[c]]
      | seg :: segs => (c :: seg) :: segs

/-- Go stdlib path.Clean: lexical cleaning of a slash-separated path.
Empty path cleans to "."; multiple slashes collapse; "." segments drop;
".." segments pop the previous segment, except that a rooted path drops
leading ".." and an unrooted path keeps unmatched ".." segments. -/
def goPathClean (p : List Char) : List Char :=
  if p = [] then ['.']
  else
    let rooted := p.head? = some '/'
    let stack := (splitSlash p).foldl
      (fun acc seg =>
        if seg = [] ∨ seg = ['.'] then acc
        else if seg = ['.', '.'] then
          if rooted then acc.dropLast
          else if acc = [] ∨ acc.getLast? = some ['.', '.'] then acc ++ [seg]
          else acc.dropLast
        else acc ++ [seg]) []
    if rooted then '/' :: List.intercalate ['/'] stack
    else if stack = [] then ['.']
    else List.intercalate ['/'] stack

/-- Go stdlib path.Join on two elements, as called by main: the empty
elements are dropped, and a join of all-empty elements is the empty path
(returned without cleaning); otherwise the non-empty elements are joined
with a slash and cleaned. -/
def goPathJoin (a b : List Char) : List Char :=
  if a = [] ∧ b = [] then []
  else if a = [] then goPathClean b
  else if b = [] then goPathClean a
  else goPathClean (a ++ '/' :: b)

/-- Socket path resolution, from main (main.go lines 20-31).  The three
inputs are the environment values of WAYLAND_SOCKET, XDG_RUNTIME_DIR and
WAYLAND_DISPLAY (Go's os.Getenv yields the empty string for an unset
variable).  none models the panic when neither WAYLAND_SOCKET nor
XDG_RUNTIME_DIR is set; otherwise the result is the path handed to
net.DialUnix after the two fallback assignments. -/
def resolveSocketPath (waylandSocket xdgRuntimeDir waylandDisplay : List Char) :
    Option (List Char) :=
  if waylandSocket = [] ∧ xdgRuntimeDir = [] then none
  else
    let p1 := if waylandSocket = [] then goPathJoin xdgRuntimeDir waylandDisplay
      else waylandSocket
    let p2 := if p1 = [] then goPathJoin xdgRuntimeDir "wayland-0".toList else p1
    some p2

/-- C3 evaluated at the claimed environment: with WAYLAND_SOCKET and
WAYLAND_DISPLAY unset and XDG_RUNTIME_DIR=/run/user/1000, the resolved
socket path is /run/user/1000 — not /run/user/1000/wayland-0 as the claim
states.  path.Join of a non-empty directory with the empty display name is
the cleaned directory itself, which is non-empty, so the wayland-0 default
branch is unreachable. -/
theorem resolveSocketPath_default_missing :
    resolveSocketPath [] "/run/user/1000".toList []
      = some "/run/user/1000".toList ∧
    resolveSocketPath [] "/run/user/1000".toList []
      ≠ some "/run/user/1000/wayland-0".toList := by
  constructor
  · rfl
  · decide

namespace wayland2

/-- Header encoder of the second production variant, from its makeMsgBuf
(main.go lines 866-872).  Like the first variant it writes both header
words with binary.LittleEndian. -/
def makeMsgBuf (id : Nat) (opcode : Nat) (dataLen : Nat) : List Nat :=
  let msgLen := (8 + dataLen) % 4294967296
  putU32le id ++ putU32le ((msgLen * 65536 + opcode % 65536) % 4294967296)

/-- Header decoder of the second variant, from its read (main.go lines
663-675), again reading both words with binary.LittleEndian. -/
def decodeHeader (hdr : List Nat) : Nat × Nat × Nat :=
  (u32le hdr, u32le (hdr.drop 4) % 65536,
   (u32le (hdr.drop 4) / 65536 + 4294967296 - 8) % 4294967296)

/-- String decoder of the second variant, from its parseStr (main.go lines
874-879). -/
def parseStr (b : List Nat) : Option (List Nat × Nat) :=
  if b.length < 4 then none
  else
    let n := u32le b
    let e := (4 + n) % 4294967296
    let pad := (4 - n % 4) % 4
    let hi := (e + 4294967296 - 1) % 4294967296
    if 4 ≤ hi ∧ hi ≤ b.length then some (goSlice b 4 hi, (e + pad) % 4294967296)
    else none

end wayland2

/-- Counterexample to C9 as stated: the message codecs of the two production
variants are the same function — both variants use binary.LittleEndian for
every wire integer, so there is no host on which they differ, big-endian
included.  This proves the negation of the claimed disagreement. -/
theorem variants_codec_equal :
    makeMsgBuf = wayland2.makeMsgBuf ∧
    decodeHeader = wayland2.decodeHeader ∧
    parseStr = wayland2.parseStr :=
  ⟨rfl, rfl, rfl⟩

/-- C9 amended: the two production variants agree on wire endianness.  Both
pin little-endian: their header encoders produce identical bytes on every
input, and the first four bytes of either encoding are the target id in
least-significant-byte-first order. -/
theorem variants_both_little_endian (id opcode dataLen : Nat) :
    makeMsgBuf id opcode dataLen = wayland2.makeMsgBuf id opcode dataLen ∧
    (makeMsgBuf id opcode dataLen).take 4
      = [id % 256, id / 256 % 256, id / 65536 % 256, id / 16777216 % 256] ∧
    (wayland2.makeMsgBuf id opcode dataLen).take 4
      = [id % 256, id / 256 % 256, id / 65536 % 256, id / 16777216 % 256] := by
  refine ⟨rfl, ?_, ?_⟩ <;>
    simp [makeMsgBuf, wayland2.makeMsgBuf, putU32le]
